import Mathlib

/-!
Shallow embedding of the HTML validator (`src/main.rs`) of
`cli_html_validator`, together with proofs of the specification claims.

The embedded part is the validation core: the DOM node data model, the
recursive pre-order traversal `HtmlValidator::traverse_dom` with its
per-kind checks, the mutable `ValidationContext`, the post-traversal
`ValidationContext::check_document_structure`, and the result assembly of
`validate_html_file` after parsing succeeded.  File access, UTF-8
decoding and the html5ever parse step happen before the core runs and
are out of scope; the embedding starts from the parsed tree
(`dom.document`).

Rust `Vec<String>` error accumulators become `List String` with push
modelled as appending a singleton at the end.  The `HashSet<String>`
of already seen singleton tags becomes a `List String` used only
through membership and insertion of a missing member, which matches the
set semantics.  The `HashMap` built in `validate_attributes` is only
queried with `contains_key`, so it is embedded as key presence in the
attribute pair list.
-/

/-- The node kinds of `markup5ever_rcdom::NodeData` that the validator
distinguishes; `processingInstruction` stands for the remaining variants
that fall into the `_ => {}` arm of `traverse_dom`. -/
inductive NodeData where
| document : NodeData
| doctype : String → NodeData
| element : String → List (String × String) → NodeData
| text : String → NodeData
| comment : String → NodeData
| processingInstruction : String → String → NodeData
deriving Repr, DecidableEq

mutual
/-- A DOM node: its data plus the ordered child sequence. -/
inductive Node where
| mk : NodeData → NodeList → Node
/-- An ordered sequence of child nodes (`node.children`). -/
inductive NodeList where
| nil : NodeList
| cons : Node → NodeList → NodeList
end

def Node.data : Node → NodeData
| .mk d _ => d

def Node.children : Node → NodeList
| .mk _ c => c

def NodeList.isEmpty : NodeList → Bool
| .nil => true
| .cons _ _ => false

/-- `ValidationContext` from the source: four structure flags plus the
set of singleton tags already seen. -/
structure ValidationContext where
  has_doctype : Bool
  has_html : Bool
  has_head : Bool
  has_body : Bool
  unique_elements : List String
deriving Repr, DecidableEq

def ValidationContext.new : ValidationContext :=
  { has_doctype := false, has_html := false, has_head := false,
    has_body := false, unique_elements := [] }

/-- `HtmlValidator`: the context plus the accumulated error report. -/
structure HtmlValidator where
  context : ValidationContext
  errors : List String
deriving Repr, DecidableEq

def HtmlValidator.new : HtmlValidator :=
  { context := ValidationContext.new, errors := [] }

def pushError (v : HtmlValidator) (msg : String) : HtmlValidator :=
  { v with errors := v.errors ++ [msg] }

/-- Message of `validate_doctype` for a doctype whose name is not "html". -/
def invalidDoctypeMsg (name : String) : String :=
  "Invalid doctype: " ++ name ++ ". Expected <!DOCTYPE html>."

/-- Message of `validate_unique_elements` for a repeated singleton tag. -/
def dupMsg (tag : String) : String :=
  "Multiple <" ++ tag ++ "> elements found. There should only be one <"
    ++ tag ++ "> element."

def missingSrcMsg : String := "<img> tag is missing 'src' attribute."

def missingAltMsg : String := "<img> tag is missing 'alt' attribute."

def missingHrefMsg : String := "<a> tag is missing 'href' attribute."

/-- Message of `validate_void_elements` for a void element with children. -/
def voidChildrenMsg (tag : String) : String :=
  "Void element <" ++ tag ++ "> should not have children."

def missingDoctypeMsg : String := "Missing <!DOCTYPE html> declaration."

def missingHtmlMsg : String := "Missing <html> element."

def missingHeadMsg : String := "Missing <head> element."

def missingBodyMsg : String := "Missing <body> element."

/-- `ValidationContext::update_context`: a `match` on the literal tag
names, written as the equivalent chain of string comparisons. -/
def update_context (ctx : ValidationContext) (name : String) : ValidationContext :=
  if name = "html" then { ctx with has_html := true }
  else if name = "head" then { ctx with has_head := true }
  else if name = "body" then { ctx with has_body := true }
  else ctx

/-- `HtmlValidator::validate_doctype`. -/
def validate_doctype (v : HtmlValidator) (name : String) : HtmlValidator :=
  if name = "html" then
    { v with context := { v.context with has_doctype := true } }
  else
    pushError v (invalidDoctypeMsg name)

def unique_tags : List String := ["title", "base"]

/-- `HtmlValidator::validate_unique_elements`.  The Rust code calls
`HashSet::insert` and errors when it returns `false` (the tag was
already present); inserting a present element leaves the set unchanged,
so the two branches below are exactly the two outcomes. -/
def validate_unique_elements (v : HtmlValidator) (name : String) : HtmlValidator :=
  if name ∈ unique_tags then
    if name ∈ v.context.unique_elements then
      pushError v (dupMsg name)
    else
      { v with context :=
          { v.context with unique_elements := name :: v.context.unique_elements } }
  else
    v

/-- Key presence in the attribute list: the Rust code collects the
pairs into a `HashMap` and asks `contains_key`, which holds exactly when
some pair carries that name. -/
def hasAttrKey (attrs : List (String × String)) (key : String) : Bool :=
  attrs.any (fun p => p.1 == key)

/-- `HtmlValidator::validate_attributes`: the `match` on the tag name,
written as the equivalent chain of string comparisons. -/
def validate_attributes (v : HtmlValidator) (name : String)
    (attrs : List (String × String)) : HtmlValidator :=
  if name = "img" then
    let v1 := if hasAttrKey attrs "src" then v else pushError v missingSrcMsg
    if hasAttrKey attrs "alt" then v1 else pushError v1 missingAltMsg
  else if name = "a" then
    if hasAttrKey attrs "href" then v else pushError v missingHrefMsg
  else v

def void_elements : List String :=
  ["area", "base", "br", "col", "embed", "hr", "img", "input", "link",
   "meta", "source", "track", "wbr"]

/-- `HtmlValidator::validate_void_elements`. -/
def validate_void_elements (v : HtmlValidator) (name : String)
    (children : NodeList) : HtmlValidator :=
  if void_elements.contains name && !children.isEmpty then
    pushError v (voidChildrenMsg name)
  else
    v

/-- The per-node dispatch of `HtmlValidator::traverse_dom` (the `match`
on `handle.data`, before the recursion into the children). -/
def visitNode (v : HtmlValidator) (data : NodeData) (children : NodeList) :
    HtmlValidator :=
  match data with
  | .document => v
  | .doctype name => validate_doctype v name
  | .element name attrs =>
    let v1 := { v with context := update_context v.context name }
    let v2 := validate_unique_elements v1 name
    let v3 := validate_attributes v2 name attrs
    validate_void_elements v3 name children
  | .text _ => v
  | .comment _ => v
  | .processingInstruction _ _ => v

mutual
/-- `HtmlValidator::traverse_dom`: dispatch on the node, then recurse
into the children in stored order. -/
def traverse_dom (v : HtmlValidator) : Node → HtmlValidator
| .mk data children => traverseChildren (visitNode v data children) children
/-- The `for child in handle.children` loop of `traverse_dom`. -/
def traverseChildren (v : HtmlValidator) : NodeList → HtmlValidator
| .nil => v
| .cons c cs => traverseChildren (traverse_dom v c) cs
end

/-- `ValidationContext::check_document_structure`: appends one message
per still-false flag, in the fixed order doctype, html, head, body. -/
def check_document_structure (ctx : ValidationContext) (errors : List String) :
    List String :=
  let e1 := if ctx.has_doctype then errors else errors ++ [missingDoctypeMsg]
  let e2 := if ctx.has_html then e1 else e1 ++ [missingHtmlMsg]
  let e3 := if ctx.has_head then e2 else e2 ++ [missingHeadMsg]
  if ctx.has_body then e3 else e3 ++ [missingBodyMsg]

/-- The error list a full run accumulates: traversal, then the
structural check on the final context. -/
def runHtmlValidator (v : HtmlValidator) (root : Node) : List String :=
  let v' := traverse_dom v root
  check_document_structure v'.context v'.errors

/-- The core of `validate_html_file` once parsing succeeded: fresh
validator, traversal from the document root, structural check, then
`Ok(())` on an empty report and the joined messages otherwise. -/
def validate_html_file (root : Node) : Except String Unit :=
  let validator := traverse_dom HtmlValidator.new root
  let errors := check_document_structure validator.context validator.errors
  if errors.isEmpty then Except.ok () else
    Except.error (String.intercalate "\n" errors)

def runErrors (root : Node) : List String :=
  runHtmlValidator HtmlValidator.new root

/-!
## Pre-order decomposition of the traversal

`preVisit` is the specification-side description of the walk: the
current node's own messages first, then the messages of the children,
left to right, with the context threaded through in the same order.
`traverse_split` shows the traversal is exactly this pre-order scheme.
-/

/-- The context update and messages a single node visit produces,
started from an empty report. -/
def visitOne (ctx : ValidationContext) (data : NodeData) (children : NodeList) :
    ValidationContext × List String :=
  let v := visitNode { context := ctx, errors := [] } data children
  (v.context, v.errors)

mutual
/-- Pre-order message collection: own messages, then children's. -/
def preVisit (ctx : ValidationContext) : Node → ValidationContext × List String
| .mk data children =>
  let p := visitOne ctx data children
  let q := preVisitChildren p.1 children
  (q.1, p.2 ++ q.2)
/-- Pre-order collection over a child sequence, left to right. -/
def preVisitChildren (ctx : ValidationContext) :
    NodeList → ValidationContext × List String
| .nil => (ctx, [])
| .cons c cs =>
  let p := preVisit ctx c
  let q := preVisitChildren p.1 cs
  (q.1, p.2 ++ q.2)
end

/-- How many occurrences of tag `t` a single node's own data carries. -/
def occNode (t : String) : NodeData → Nat
| .element name _ => if name = t then 1 else 0
| _ => 0

mutual
/-- Number of element nodes with tag `t` in the whole tree. -/
def occ (t : String) : Node → Nat
| .mk data children => occNode t data + occList t children
/-- Number of element nodes with tag `t` in a node sequence. -/
def occList (t : String) : NodeList → Nat
| .nil => 0
| .cons c cs => occ t c + occList t cs
end

/-- Whether a single node's own data is a doctype named `d`. -/
def isDoctypeNamed (d : String) : NodeData → Bool
| .doctype name => name == d
| _ => false

mutual
/-- Whether the tree contains a doctype node with name `d`. -/
def hasDoctypeNamed (d : String) : Node → Bool
| .mk data children => isDoctypeNamed d data || hasDoctypeNamedList d children
/-- Whether a node sequence contains a doctype node with name `d`. -/
def hasDoctypeNamedList (d : String) : NodeList → Bool
| .nil => false
| .cons c cs => hasDoctypeNamed d c || hasDoctypeNamedList d cs
end

/-- Concrete document with three `title` elements, used as a witness. -/
def threeTitleTree : Node :=
  .mk .document (.cons (.mk (.element "title" []) .nil)
    (.cons (.mk (.element "title" []) .nil)
      (.cons (.mk (.element "title" []) .nil) .nil)))

/-- Concrete document whose only doctype is named `xml`, as a witness. -/
def badDoctypeTree : Node :=
  .mk .document (.cons (.mk (.doctype "xml") .nil) .nil)

/-- Concrete document root used as a determinism witness. -/
def smallTree : Node :=
  .mk .document (.cons (.mk (.element "img" []) .nil) .nil)

/-- A validator step is framed when its context result ignores the
already accumulated messages and its messages are appended at the end. -/
def Framed (f : HtmlValidator → HtmlValidator) : Prop :=
  ∀ ctx errs,
    (f { context := ctx, errors := errs }).context =
      (f { context := ctx, errors := [] }).context ∧
    (f { context := ctx, errors := errs }).errors =
      errs ++ (f { context := ctx, errors := [] }).errors

theorem framed_id : Framed (fun v => v) := by
  intro ctx errs
  simp

theorem framed_comp {f g : HtmlValidator → HtmlValidator}
    (hf : Framed f) (hg : Framed g) : Framed (fun v => g (f v)) := by
  intro ctx errs
  obtain ⟨hc1, he1⟩ := hf ctx errs
  obtain ⟨hc2, he2⟩ :=
    hg (f { context := ctx, errors := errs }).context
      (f { context := ctx, errors := errs }).errors
  obtain ⟨hc3, he3⟩ :=
    hg (f { context := ctx, errors := [] }).context
      (f { context := ctx, errors := [] }).errors
  refine ⟨?_, ?_⟩
  · calc (g (f { context := ctx, errors := errs })).context
        = (g { context := (f { context := ctx, errors := errs }).context,
               errors := [] }).context := hc2
      _ = (g { context := (f { context := ctx, errors := [] }).context,
               errors := [] }).context := by rw [hc1]
      _ = (g (f { context := ctx, errors := [] })).context := hc3.symm
  · calc (g (f { context := ctx, errors := errs })).errors
        = (f { context := ctx, errors := errs }).errors ++
            (g { context := (f { context := ctx, errors := errs }).context,
                 errors := [] }).errors := he2
      _ = (errs ++ (f { context := ctx, errors := [] }).errors) ++
            (g { context := (f { context := ctx, errors := [] }).context,
                 errors := [] }).errors := by rw [he1, hc1]
      _ = errs ++ ((f { context := ctx, errors := [] }).errors ++
            (g { context := (f { context := ctx, errors := [] }).context,
                 errors := [] }).errors) := by rw [List.append_assoc]
      _ = errs ++ (g (f { context := ctx, errors := [] })).errors := by rw [he3]

theorem framed_validate_doctype (name : String) :
    Framed (fun v => validate_doctype v name) := by
  intro ctx errs
  by_cases h : name = "html" <;> simp [validate_doctype, pushError, h]

theorem framed_update_context (name : String) :
    Framed (fun v => { v with context := update_context v.context name }) := by
  intro ctx errs
  simp

theorem framed_validate_unique_elements (name : String) :
    Framed (fun v => validate_unique_elements v name) := by
  intro ctx errs
  by_cases h1 : name ∈ unique_tags <;>
    by_cases h2 : name ∈ ctx.unique_elements <;>
      simp [validate_unique_elements, pushError, h1, h2]

theorem framed_validate_attributes (name : String)
    (attrs : List (String × String)) :
    Framed (fun v => validate_attributes v name attrs) := by
  intro ctx errs
  by_cases h1 : name = "img"
  · by_cases h2 : hasAttrKey attrs "src" <;>
      by_cases h3 : hasAttrKey attrs "alt" <;>
        simp [validate_attributes, pushError, h1, h2, h3]
  · by_cases h2 : name = "a"
    · by_cases h3 : hasAttrKey attrs "href" <;>
        simp [validate_attributes, pushError, h1, h2, h3]
    · simp [validate_attributes, pushError, h1, h2]

theorem framed_validate_void_elements (name : String) (children : NodeList) :
    Framed (fun v => validate_void_elements v name children) := by
  intro ctx errs
  simp only [validate_void_elements, pushError]
  split <;> rename_i h <;> simp [h]

theorem framed_visitNode (data : NodeData) (children : NodeList) :
    Framed (fun v => visitNode v data children) := by
  match data with
  | .document => exact framed_id
  | .doctype name => exact framed_validate_doctype name
  | .element name attrs =>
    have h := framed_comp (framed_comp (framed_comp
      (framed_update_context name) (framed_validate_unique_elements name))
      (framed_validate_attributes name attrs))
      (framed_validate_void_elements name children)
    intro ctx errs
    exact h ctx errs
  | .text s => exact framed_id
  | .comment s => exact framed_id
  | .processingInstruction a b => exact framed_id

theorem HtmlValidator.eq_mk {v : HtmlValidator} {c : ValidationContext}
    {e : List String} (hc : v.context = c) (he : v.errors = e) :
    v = { context := c, errors := e } := by
  cases v
  cases hc
  cases he
  rfl

theorem visitNode_split (v : HtmlValidator) (data : NodeData)
    (children : NodeList) :
    visitNode v data children =
      { context := (visitOne v.context data children).1,
        errors := v.errors ++ (visitOne v.context data children).2 } := by
  obtain ⟨hc, he⟩ := framed_visitNode data children v.context v.errors
  exact HtmlValidator.eq_mk hc he

mutual
theorem traverse_split (v : HtmlValidator) :
    (n : Node) → traverse_dom v n =
      { context := (preVisit v.context n).1,
        errors := v.errors ++ (preVisit v.context n).2 }
| .mk data children => by
  have h2 := traverseChildren_split (visitNode v data children) children
  rw [traverse_dom, h2, visitNode_split v data children]
  simp [preVisit]
theorem traverseChildren_split (v : HtmlValidator) :
    (l : NodeList) → traverseChildren v l =
      { context := (preVisitChildren v.context l).1,
        errors := v.errors ++ (preVisitChildren v.context l).2 }
| .nil => by simp [traverseChildren, preVisitChildren]
| .cons c cs => by
  have h2 := traverseChildren_split (traverse_dom v c) cs
  rw [traverseChildren, h2, traverse_split v c]
  simp [preVisitChildren]
end

/-!
## Message disambiguation and counting helpers
-/

theorem ne_of_head {a b : String} {c d : Char}
    (ha : a.data.head? = some c) (hb : b.data.head? = some d)
    (hcd : c ≠ d) : a ≠ b := by
  intro e
  rw [e, hb] at ha
  exact hcd (Option.some.inj ha).symm

theorem dupMsg_head (tag : String) : (dupMsg tag).data.head? = some 'M' := rfl

theorem invalidDoctypeMsg_head (name : String) :
    (invalidDoctypeMsg name).data.head? = some 'I' := rfl

theorem voidChildrenMsg_head (tag : String) :
    (voidChildrenMsg tag).data.head? = some 'V' := rfl

theorem invalid_ne_dup (name t : String) : invalidDoctypeMsg name ≠ dupMsg t :=
  ne_of_head (invalidDoctypeMsg_head name) (dupMsg_head t) (by decide)

theorem void_ne_dup (name t : String) : voidChildrenMsg name ≠ dupMsg t :=
  ne_of_head (voidChildrenMsg_head name) (dupMsg_head t) (by decide)

theorem src_ne_dup (t : String) : missingSrcMsg ≠ dupMsg t :=
  ne_of_head (show missingSrcMsg.data.head? = some '<' from rfl)
    (dupMsg_head t) (by decide)

theorem alt_ne_dup (t : String) : missingAltMsg ≠ dupMsg t :=
  ne_of_head (show missingAltMsg.data.head? = some '<' from rfl)
    (dupMsg_head t) (by decide)

theorem href_ne_dup (t : String) : missingHrefMsg ≠ dupMsg t :=
  ne_of_head (show missingHrefMsg.data.head? = some '<' from rfl)
    (dupMsg_head t) (by decide)

theorem dupMsg_ne_of_tags {t name : String} (ht : t ∈ unique_tags)
    (hn : name ∈ unique_tags) (hne : name ≠ t) : dupMsg name ≠ dupMsg t := by
  simp [unique_tags] at ht hn
  rcases ht with rfl | rfl <;> rcases hn with rfl | rfl <;>
    first
      | exact absurd rfl hne
      | decide

theorem count_push (l : List String) (m a : String) :
    (l ++ [m]).count a = l.count a + (if m = a then 1 else 0) := by
  simp [List.count_append, List.count_singleton']

theorem count_singleton_ne {a b : String} (h : b ≠ a) :
    List.count a [b] = 0 := by
  rw [List.count_singleton', if_neg h]

theorem count_pair_ne {a b c : String} (hb : b ≠ a) (hc : c ≠ a) :
    List.count a [b, c] = 0 := by
  rw [show [b, c] = [b] ++ [c] from rfl, List.count_append,
    count_singleton_ne hb, count_singleton_ne hc]

theorem update_context_unique (ctx : ValidationContext) (name : String) :
    (update_context ctx name).unique_elements = ctx.unique_elements := by
  unfold update_context
  split_ifs <;> rfl

theorem update_context_has_doctype (ctx : ValidationContext) (name : String) :
    (update_context ctx name).has_doctype = ctx.has_doctype := by
  unfold update_context
  split_ifs <;> rfl

/-!
## Counting the duplicate-singleton messages
-/

theorem validate_doctype_dup (v : HtmlValidator) (name t : String) :
    (validate_doctype v name).context.unique_elements =
      v.context.unique_elements ∧
    (validate_doctype v name).errors.count (dupMsg t) =
      v.errors.count (dupMsg t) := by
  by_cases h : name = "html" <;>
    simp [validate_doctype, pushError, h, count_push,
      count_singleton_ne (invalid_ne_dup name t)]

theorem validate_attributes_dup (v : HtmlValidator) (name t : String)
    (attrs : List (String × String)) :
    (validate_attributes v name attrs).context = v.context ∧
    (validate_attributes v name attrs).errors.count (dupMsg t) =
      v.errors.count (dupMsg t) := by
  by_cases h1 : name = "img"
  · by_cases h2 : hasAttrKey attrs "src" <;>
      by_cases h3 : hasAttrKey attrs "alt" <;>
        simp [validate_attributes, pushError, h1, h2, h3, List.count_append,
          count_singleton_ne (src_ne_dup t), count_singleton_ne (alt_ne_dup t),
          count_pair_ne (src_ne_dup t) (alt_ne_dup t)]
  · by_cases h2 : name = "a"
    · by_cases h3 : hasAttrKey attrs "href" <;>
        simp [validate_attributes, pushError, h1, h2, h3, List.count_append,
          count_singleton_ne (href_ne_dup t)]
    · simp [validate_attributes, h1, h2]

theorem validate_void_dup (v : HtmlValidator) (name t : String)
    (children : NodeList) :
    (validate_void_elements v name children).context = v.context ∧
    (validate_void_elements v name children).errors.count (dupMsg t) =
      v.errors.count (dupMsg t) := by
  unfold validate_void_elements pushError
  split <;> simp [List.count_append, count_singleton_ne (void_ne_dup name t)]

theorem validate_unique_dup (t name : String) (ht : t ∈ unique_tags)
    (ctx : ValidationContext) (errs : List String) :
    ((validate_unique_elements { context := ctx, errors := errs }
        name).errors.count (dupMsg t) =
      errs.count (dupMsg t) +
        (if name = t ∧ t ∈ ctx.unique_elements then 1 else 0)) ∧
    (t ∈ (validate_unique_elements { context := ctx, errors := errs }
        name).context.unique_elements ↔
      (t ∈ ctx.unique_elements ∨ name = t)) := by
  unfold validate_unique_elements pushError
  by_cases h1 : name ∈ unique_tags
  · by_cases h2 : name ∈ ctx.unique_elements
    · rw [if_pos h1, if_pos h2]
      by_cases h3 : name = t
      · subst h3
        simp [count_push, h2]
      · simp [List.count_append,
          count_singleton_ne (dupMsg_ne_of_tags ht h1 h3), h3]
    · rw [if_pos h1, if_neg h2]
      by_cases h3 : name = t
      · subst h3
        simp [h2]
      · have h3' : t ≠ name := fun h => h3 h.symm
        simp [h3, h3']
  · have h3 : name ≠ t := fun h => h1 (h ▸ ht)
    rw [if_neg h1]
    simp [h3]

theorem visitOne_dup (t : String) (ht : t ∈ unique_tags)
    (ctx : ValidationContext) (data : NodeData) (children : NodeList) :
    ((visitOne ctx data children).2.count (dupMsg t) =
      (if t ∈ ctx.unique_elements then occNode t data
       else occNode t data - 1)) ∧
    (t ∈ (visitOne ctx data children).1.unique_elements ↔
      (t ∈ ctx.unique_elements ∨ 0 < occNode t data)) := by
  match data with
  | .document => simp [visitOne, visitNode, occNode]
  | .text s => simp [visitOne, visitNode, occNode]
  | .comment s => simp [visitOne, visitNode, occNode]
  | .processingInstruction a b => simp [visitOne, visitNode, occNode]
  | .doctype name =>
    obtain ⟨hu, hcnt⟩ :=
      validate_doctype_dup { context := ctx, errors := [] } name t
    constructor
    · show (validate_doctype { context := ctx, errors := [] }
        name).errors.count (dupMsg t) = _
      rw [hcnt]
      simp [occNode]
    · show t ∈ (validate_doctype { context := ctx, errors := [] }
        name).context.unique_elements ↔ _
      rw [hu]
      simp [occNode]
  | .element name attrs =>
    have hctx1 := update_context_unique ctx name
    obtain ⟨hucnt, humem⟩ :=
      validate_unique_dup t name ht (update_context ctx name) []
    obtain ⟨hactx, hacnt⟩ :=
      validate_attributes_dup
        (validate_unique_elements
          { context := update_context ctx name, errors := [] } name)
        name t attrs
    obtain ⟨hvctx, hvcnt⟩ :=
      validate_void_dup
        (validate_attributes
          (validate_unique_elements
            { context := update_context ctx name, errors := [] } name)
          name attrs)
        name t children
    constructor
    · show (validate_void_elements (validate_attributes
        (validate_unique_elements
          { context := update_context ctx name, errors := [] } name)
        name attrs) name children).errors.count (dupMsg t) = _
      rw [hvcnt, hacnt, hucnt, hctx1]
      by_cases hm : t ∈ ctx.unique_elements <;> by_cases hnt : name = t <;>
        simp [occNode, hm, hnt]
    · show t ∈ (validate_void_elements (validate_attributes
        (validate_unique_elements
          { context := update_context ctx name, errors := [] } name)
        name attrs) name children).context.unique_elements ↔ _
      rw [hvctx, hactx]
      rw [hctx1] at humem
      rw [humem]
      by_cases hnt : name = t <;> simp [occNode, hnt]

mutual
theorem preVisit_dup (t : String) (ht : t ∈ unique_tags)
    (ctx : ValidationContext) :
    (n : Node) →
    ((preVisit ctx n).2.count (dupMsg t) =
      (if t ∈ ctx.unique_elements then occ t n else occ t n - 1)) ∧
    (t ∈ (preVisit ctx n).1.unique_elements ↔
      (t ∈ ctx.unique_elements ∨ 0 < occ t n))
| .mk data children => by
  obtain ⟨h1, h2⟩ := visitOne_dup t ht ctx data children
  obtain ⟨h3, h4⟩ :=
    preVisitChildren_dup t ht (visitOne ctx data children).1 children
  simp only [preVisit, List.count_append, occ, h1, h3, h2, h4]
  by_cases hm : t ∈ ctx.unique_elements
  · simp [hm]
  · simp only [hm, if_neg, false_or]
    constructor
    · by_cases ha : 0 < occNode t data <;>
        simp [hm, ha] <;> omega
    · by_cases ha : 0 < occNode t data <;> simp [ha]
theorem preVisitChildren_dup (t : String) (ht : t ∈ unique_tags)
    (ctx : ValidationContext) :
    (l : NodeList) →
    ((preVisitChildren ctx l).2.count (dupMsg t) =
      (if t ∈ ctx.unique_elements then occList t l else occList t l - 1)) ∧
    (t ∈ (preVisitChildren ctx l).1.unique_elements ↔
      (t ∈ ctx.unique_elements ∨ 0 < occList t l))
| .nil => by simp [preVisitChildren, occList]
| .cons c cs => by
  obtain ⟨h1, h2⟩ := preVisit_dup t ht ctx c
  obtain ⟨h3, h4⟩ := preVisitChildren_dup t ht (preVisit ctx c).1 cs
  simp only [preVisitChildren, List.count_append, occList, h1, h3, h2, h4]
  by_cases hm : t ∈ ctx.unique_elements
  · simp [hm]
  · simp only [hm, if_neg, false_or]
    constructor
    · by_cases ha : 0 < occ t c <;> simp [hm, ha] <;> omega
    · by_cases ha : 0 < occ t c <;> simp [ha]
end

/-- The structural check written as one append. -/
theorem check_document_structure_eq (ctx : ValidationContext)
    (errors : List String) :
    check_document_structure ctx errors =
      errors ++
        ((if ctx.has_doctype then [] else [missingDoctypeMsg]) ++
         ((if ctx.has_html then [] else [missingHtmlMsg]) ++
          ((if ctx.has_head then [] else [missingHeadMsg]) ++
           (if ctx.has_body then [] else [missingBodyMsg])))) := by
  cases hd : ctx.has_doctype <;> cases hh : ctx.has_html <;>
    cases hhd : ctx.has_head <;> cases hb : ctx.has_body <;>
      simp [check_document_structure, hd, hh, hhd, hb]

theorem structural_dup_count (ctx : ValidationContext) (errs : List String)
    (t : String) (ht : t ∈ unique_tags) :
    (check_document_structure ctx errs).count (dupMsg t) =
      errs.count (dupMsg t) := by
  rw [check_document_structure_eq]
  simp only [List.count_append]
  have hdt : t = "title" ∨ t = "base" := by simpa [unique_tags] using ht
  rcases hdt with rfl | rfl <;>
    cases ctx.has_doctype <;> cases ctx.has_html <;>
      cases ctx.has_head <;> cases ctx.has_body <;>
        simp <;> decide

/-!
## Tracking the doctype flag and the invalid-doctype messages
-/

theorem validate_unique_has_doctype (v : HtmlValidator) (name : String) :
    (validate_unique_elements v name).context.has_doctype =
      v.context.has_doctype := by
  unfold validate_unique_elements pushError
  split_ifs <;> rfl

theorem visitOne_has_doctype (ctx : ValidationContext) (data : NodeData)
    (children : NodeList) :
    (visitOne ctx data children).1.has_doctype =
      (ctx.has_doctype || isDoctypeNamed "html" data) := by
  cases data with
  | document => simp [visitOne, visitNode, isDoctypeNamed]
  | text s => simp [visitOne, visitNode, isDoctypeNamed]
  | comment s => simp [visitOne, visitNode, isDoctypeNamed]
  | processingInstruction a b => simp [visitOne, visitNode, isDoctypeNamed]
  | doctype name =>
    by_cases h : name = "html" <;>
      simp [visitOne, visitNode, validate_doctype, pushError,
        isDoctypeNamed, h]
  | element name attrs =>
    show (validate_void_elements (validate_attributes
      (validate_unique_elements
        { context := update_context ctx name, errors := [] } name)
      name attrs) name children).context.has_doctype = _
    rw [(validate_void_dup _ name "title" children).1,
      (validate_attributes_dup _ name "title" attrs).1,
      validate_unique_has_doctype]
    simp [update_context_has_doctype, isDoctypeNamed]

mutual
theorem preVisit_has_doctype (ctx : ValidationContext) :
    (n : Node) → (preVisit ctx n).1.has_doctype =
      (ctx.has_doctype || hasDoctypeNamed "html" n)
| .mk data children => by
  have h2 :=
    preVisitChildren_has_doctype (visitOne ctx data children).1 children
  simp only [preVisit, h2, visitOne_has_doctype, hasDoctypeNamed,
    Bool.or_assoc]
theorem preVisitChildren_has_doctype (ctx : ValidationContext) :
    (l : NodeList) → (preVisitChildren ctx l).1.has_doctype =
      (ctx.has_doctype || hasDoctypeNamedList "html" l)
| .nil => by simp [preVisitChildren, hasDoctypeNamedList]
| .cons c cs => by
  have h2 := preVisitChildren_has_doctype (preVisit ctx c).1 cs
  simp only [preVisitChildren, h2, preVisit_has_doctype ctx c,
    hasDoctypeNamedList, Bool.or_assoc]
end

mutual
theorem preVisit_invalid_mem (d : String) (hd : d ≠ "html")
    (ctx : ValidationContext) :
    (n : Node) → hasDoctypeNamed d n = true →
      invalidDoctypeMsg d ∈ (preVisit ctx n).2
| .mk data children => by
  intro h
  simp only [hasDoctypeNamed, Bool.or_eq_true] at h
  simp only [preVisit, List.mem_append]
  rcases h with h | h
  · left
    cases data with
    | doctype name =>
      have hn : name = d := by simpa [isDoctypeNamed] using h
      subst hn
      simp [visitOne, visitNode, validate_doctype, pushError, hd]
    | document => simp [isDoctypeNamed] at h
    | element a b => simp [isDoctypeNamed] at h
    | text s => simp [isDoctypeNamed] at h
    | comment s => simp [isDoctypeNamed] at h
    | processingInstruction a b => simp [isDoctypeNamed] at h
  · exact Or.inr (preVisitChildren_invalid_mem d hd _ children h)
theorem preVisitChildren_invalid_mem (d : String) (hd : d ≠ "html")
    (ctx : ValidationContext) :
    (l : NodeList) → hasDoctypeNamedList d l = true →
      invalidDoctypeMsg d ∈ (preVisitChildren ctx l).2
| .nil => by
  intro h
  simp [hasDoctypeNamedList] at h
| .cons c cs => by
  intro h
  simp only [hasDoctypeNamedList, Bool.or_eq_true] at h
  simp only [preVisitChildren, List.mem_append]
  rcases h with h | h
  · exact Or.inl (preVisit_invalid_mem d hd ctx c h)
  · exact Or.inr (preVisitChildren_invalid_mem d hd _ cs h)
end

/-!
## Claim theorems
-/

/-- Claim C1: the traversal is exactly the pre-order scheme `preVisit`:
each node's own check runs first and contributes its messages before
those of its children, the children are processed left to right in
stored order with the context threaded through, and the walk always
completes — the result is the full pre-order message sequence appended
to the previously accumulated errors, for every input tree and starting
state, never cut short by earlier errors. -/
theorem claim_C1_preorder_traversal (v : HtmlValidator) (n : Node) :
    traverse_dom v n =
      { context := (preVisit v.context n).1,
        errors := v.errors ++ (preVisit v.context n).2 } :=
  traverse_split v n

/-- Claim C2: the run returns the success value exactly when the
accumulated report (traversal plus structural check) is empty, and
otherwise fails with precisely the accumulated messages joined by a
newline, in discovery order. -/
theorem claim_C2_result_assembly (root : Node) :
    (validate_html_file root = Except.ok () ↔ runErrors root = []) ∧
    (∀ e, validate_html_file root = Except.error e ↔
      (runErrors root ≠ [] ∧ e = String.intercalate "\n" (runErrors root))) := by
  have hdef : validate_html_file root =
      (if (runErrors root).isEmpty then Except.ok () else
        Except.error (String.intercalate "\n" (runErrors root))) := rfl
  rw [hdef]
  by_cases h : (runErrors root).isEmpty
  · have h' : runErrors root = [] := by simpa using h
    rw [if_pos h]
    exact ⟨by simp [h'], fun e => by simp [h']⟩
  · have h' : runErrors root ≠ [] := by simpa using h
    rw [if_neg h]
    refine ⟨by simp [h'], fun e => ?_⟩
    constructor
    · intro he
      exact ⟨h', by injection he with h2; exact h2.symm⟩
    · rintro ⟨-, rfl⟩
      rfl

/-- Claim C4: for a singleton tag (`title` or `base`) occurring n ≥ 2
times anywhere in the tree, the full run reports exactly n − 1
duplicate-element messages for that tag: the first occurrence only
records the tag as seen, every later occurrence errors. -/
theorem claim_C4_duplicate_singleton_count (t : String) (n : Node)
    (ht : t = "title" ∨ t = "base") (h2 : 2 ≤ occ t n) :
    (runErrors n).count (dupMsg t) = occ t n - 1 := by
  have ht' : t ∈ unique_tags := by
    rcases ht with rfl | rfl <;> simp [unique_tags]
  have hrun : runErrors n =
      check_document_structure (traverse_dom HtmlValidator.new n).context
        (traverse_dom HtmlValidator.new n).errors := rfl
  rw [hrun, structural_dup_count _ _ t ht',
    traverse_split HtmlValidator.new n]
  obtain ⟨hc, -⟩ := preVisit_dup t ht' HtmlValidator.new.context n
  rw [List.count_append, hc]
  simp [HtmlValidator.new, ValidationContext.new]

/-- Witness for C4 at a concrete document with three `title` elements. -/
theorem claim_C4_witness :
    ((("title" : String) = "title" ∨ ("title" : String) = "base") ∧
      2 ≤ occ "title" threeTitleTree) ∧
    (runErrors threeTitleTree).count (dupMsg "title") =
      occ "title" threeTitleTree - 1 :=
  ⟨⟨Or.inl rfl, by decide⟩,
    claim_C4_duplicate_singleton_count "title" threeTitleTree (Or.inl rfl)
      (by decide)⟩

/-- Claim C5: a Doctype named exactly "html" (case-sensitively) sets
`has_doctype` and produces no message; any other name leaves the
context unchanged and appends one invalid-doctype message that carries
the actual name. -/
theorem claim_C5_doctype_rule (v : HtmlValidator) (name : String) :
    (name = "html" →
      validate_doctype v name =
        { context := { v.context with has_doctype := true },
          errors := v.errors }) ∧
    (name ≠ "html" →
      validate_doctype v name =
        { context := v.context,
          errors := v.errors ++
            ["Invalid doctype: " ++ name ++ ". Expected <!DOCTYPE html>."] }) := by
  constructor
  · intro h
    simp [validate_doctype, h]
  · intro h
    simp [validate_doctype, pushError, invalidDoctypeMsg, h]

/-- Witness for C5 at the names "html" and "xml". -/
theorem claim_C5_witness :
    validate_doctype HtmlValidator.new "html" =
      { context := { ValidationContext.new with has_doctype := true },
        errors := [] } ∧
    validate_doctype HtmlValidator.new "xml" =
      { context := ValidationContext.new,
        errors := ["Invalid doctype: " ++ "xml" ++
          ". Expected <!DOCTYPE html>."] } :=
  ⟨(claim_C5_doctype_rule HtmlValidator.new "html").1 rfl,
    (claim_C5_doctype_rule HtmlValidator.new "xml").2 (by decide)⟩

/-- Claim C6: an `img` element missing both `src` and `alt` gets
exactly two messages, missing-src first and missing-alt second, and the
two messages are distinct (never one combined message). -/
theorem claim_C6_img_two_messages (v : HtmlValidator)
    (attrs : List (String × String))
    (hsrc : hasAttrKey attrs "src" = false)
    (halt : hasAttrKey attrs "alt" = false) :
    validate_attributes v "img" attrs =
      { context := v.context,
        errors := v.errors ++ [missingSrcMsg, missingAltMsg] } ∧
    missingSrcMsg ≠ missingAltMsg := by
  refine ⟨?_, by decide⟩
  simp [validate_attributes, pushError, hsrc, halt]

/-- Witness for C6 at an `img` with an empty attribute list. -/
theorem claim_C6_witness :
    validate_attributes HtmlValidator.new "img" [] =
      { context := ValidationContext.new,
        errors := [missingSrcMsg, missingAltMsg] } ∧
    missingSrcMsg ≠ missingAltMsg :=
  ⟨(claim_C6_img_two_messages HtmlValidator.new [] rfl rfl).1,
    (claim_C6_img_two_messages HtmlValidator.new [] rfl rfl).2⟩

/-- Claim C7: a void-set element with a non-empty child sequence gets
exactly one must-not-have-children message, however many children it
has; with zero children it gets none. -/
theorem claim_C7_void_children (v : HtmlValidator) (name : String)
    (children : NodeList) (hv : name ∈ void_elements) :
    (children.isEmpty = false →
      validate_void_elements v name children =
        { context := v.context,
          errors := v.errors ++ [voidChildrenMsg name] }) ∧
    (children.isEmpty = true →
      validate_void_elements v name children = v) := by
  constructor
  · intro h
    simp [validate_void_elements, pushError, hv, h]
  · intro h
    simp [validate_void_elements, hv, h]

/-- Witness for C7: a `br` with one child errs once, an empty `br`
does not. -/
theorem claim_C7_witness :
    validate_void_elements HtmlValidator.new "br"
        (.cons (.mk (.element "span" []) .nil) .nil) =
      { context := ValidationContext.new,
        errors := [voidChildrenMsg "br"] } ∧
    validate_void_elements HtmlValidator.new "br" .nil = HtmlValidator.new :=
  ⟨(claim_C7_void_children HtmlValidator.new "br"
      (.cons (.mk (.element "span" []) .nil) .nil) (by decide)).1 rfl,
    (claim_C7_void_children HtmlValidator.new "br" .nil (by decide)).2 rfl⟩

/-- Claim C8: runs from two freshly constructed validators (each its
own context and report) on the same immutable tree produce identical
reports, in identical order. -/
theorem claim_C8_deterministic (root : Node) (v1 v2 : HtmlValidator)
    (h1 : v1 = HtmlValidator.new) (h2 : v2 = HtmlValidator.new) :
    runHtmlValidator v1 root = runHtmlValidator v2 root := by
  rw [h1, h2]

/-- Witness for C8 at a concrete document root. -/
theorem claim_C8_witness :
    runHtmlValidator HtmlValidator.new smallTree =
      runHtmlValidator HtmlValidator.new smallTree :=
  claim_C8_deterministic smallTree HtmlValidator.new HtmlValidator.new rfl rfl

/-- Claim C9: if the tree has a doctype named `d ≠ "html"` and no
doctype named "html", then `has_doctype` is still false after the
traversal, and the final report contains both the traversal-tier
invalid-doctype message (carrying `d`) and the structural-tier
missing-doctype message — two distinct messages for one bad doctype. -/
theorem claim_C9_bad_doctype_twice (n : Node) (d : String)
    (hd : hasDoctypeNamed d n = true) (hne : d ≠ "html")
    (hnone : hasDoctypeNamed "html" n = false) :
    (traverse_dom HtmlValidator.new n).context.has_doctype = false ∧
    invalidDoctypeMsg d ∈ runErrors n ∧
    missingDoctypeMsg ∈ runErrors n ∧
    invalidDoctypeMsg d ≠ missingDoctypeMsg := by
  have hsplit := traverse_split HtmlValidator.new n
  have hctx : (traverse_dom HtmlValidator.new n).context =
      (preVisit HtmlValidator.new.context n).1 := by rw [hsplit]
  have herr : (traverse_dom HtmlValidator.new n).errors =
      HtmlValidator.new.errors ++ (preVisit HtmlValidator.new.context n).2 := by
    rw [hsplit]
  have hflag : (traverse_dom HtmlValidator.new n).context.has_doctype = false := by
    rw [hctx, preVisit_has_doctype]
    simp [HtmlValidator.new, ValidationContext.new, hnone]
  have hrun : runErrors n =
      check_document_structure (traverse_dom HtmlValidator.new n).context
        (traverse_dom HtmlValidator.new n).errors := rfl
  refine ⟨hflag, ?_, ?_, ?_⟩
  · have hmem := preVisit_invalid_mem d hne HtmlValidator.new.context n hd
    rw [hrun, check_document_structure_eq, herr]
    simp [hmem]
  · rw [hrun, check_document_structure_eq, hflag]
    simp
  · exact ne_of_head (invalidDoctypeMsg_head d)
      (show missingDoctypeMsg.data.head? = some 'M' from rfl) (by decide)

/-- Witness for C9 at a document whose only doctype is named "xml". -/
theorem claim_C9_witness :
    (hasDoctypeNamed "xml" badDoctypeTree = true ∧ ("xml" : String) ≠ "html" ∧
      hasDoctypeNamed "html" badDoctypeTree = false) ∧
    ((traverse_dom HtmlValidator.new badDoctypeTree).context.has_doctype = false ∧
     invalidDoctypeMsg "xml" ∈ runErrors badDoctypeTree ∧
     missingDoctypeMsg ∈ runErrors badDoctypeTree ∧
     invalidDoctypeMsg "xml" ≠ missingDoctypeMsg) :=
  ⟨⟨by decide, by decide, by decide⟩,
    claim_C9_bad_doctype_twice badDoctypeTree "xml" (by decide) (by decide)
      (by decide)⟩

/-- Claim C10: the required-attribute checks for `img` and `a` test key
presence only — `hasAttrKey` holds exactly when some pair carries the
key, whatever its value (an empty value or any repeated occurrence
satisfies it) — and the produced messages depend on nothing else. -/
theorem claim_C10_presence_only (v : HtmlValidator)
    (attrs : List (String × String)) :
    (∀ key, hasAttrKey attrs key = true ↔ ∃ val, (key, val) ∈ attrs) ∧
    (validate_attributes v "img" attrs).errors =
      v.errors ++
        ((if hasAttrKey attrs "src" then [] else [missingSrcMsg]) ++
         (if hasAttrKey attrs "alt" then [] else [missingAltMsg])) ∧
    (validate_attributes v "a" attrs).errors =
      v.errors ++
        (if hasAttrKey attrs "href" then [] else [missingHrefMsg]) := by
  refine ⟨?_, ?_, ?_⟩
  · intro key
    constructor
    · intro h
      obtain ⟨p, hmem, hk⟩ := List.any_eq_true.mp h
      obtain ⟨a, b⟩ := p
      have : a = key := by simpa using hk
      subst this
      exact ⟨b, hmem⟩
    · rintro ⟨val, hmem⟩
      exact List.any_eq_true.mpr ⟨(key, val), hmem, by simp⟩
  · by_cases h2 : hasAttrKey attrs "src" <;>
      by_cases h3 : hasAttrKey attrs "alt" <;>
        simp [validate_attributes, pushError, h2, h3]
  · by_cases h2 : hasAttrKey attrs "href" <;>
      simp [validate_attributes, pushError, h2]

/-- Claim C3: the structural checker appends, after all previously
accumulated messages, exactly one message per still-false flag, in the
fixed order doctype, html, head, body, and the four messages are
pairwise distinct. -/
theorem claim_C3_structural_messages (ctx : ValidationContext)
    (errors : List String) :
    check_document_structure ctx errors =
      errors ++
        ((if ctx.has_doctype then [] else [missingDoctypeMsg]) ++
         ((if ctx.has_html then [] else [missingHtmlMsg]) ++
          ((if ctx.has_head then [] else [missingHeadMsg]) ++
           (if ctx.has_body then [] else [missingBodyMsg])))) ∧
    (missingDoctypeMsg ≠ missingHtmlMsg ∧ missingDoctypeMsg ≠ missingHeadMsg ∧
     missingDoctypeMsg ≠ missingBodyMsg ∧ missingHtmlMsg ≠ missingHeadMsg ∧
     missingHtmlMsg ≠ missingBodyMsg ∧ missingHeadMsg ≠ missingBodyMsg) := by
  refine ⟨?_, by decide⟩
  cases hd : ctx.has_doctype <;> cases hh : ctx.has_html <;>
    cases hhd : ctx.has_head <;> cases hb : ctx.has_body <;>
      simp [check_document_structure, hd, hh, hhd, hb]
